import Mathlib

/-!
Verification of the offline capture and synchronization layer of the
track-fittings inspection app, as a shallow embedding of the JavaScript
service modules (TrackingService, InspectionService, DashboardService,
QRService, AIService) into Lean.

The key-value store (AsyncStorage) is modelled as an association list with
overwrite-on-set semantics; machine time is modelled as Int (milliseconds);
remote calls are modelled by passing each call's outcome as a parameter
(an axios success/throw becomes an Except value); try/catch blocks that
swallow errors become total functions.
-/

/-- JS Map.set / AsyncStorage.setItem: overwrite the binding for key,
or append a new binding, preserving insertion order. -/
def setItem {α : Type} (key : String) (v : α) : List (String × α) → List (String × α)
  | [] => [(key, v)]
  | (k, w) :: rest => if k = key then (key, v) :: rest else (k, w) :: setItem key v rest

/-- JS Map.get / AsyncStorage.getItem: first binding for the key, if any. -/
def getItem {α : Type} (key : String) : List (String × α) → Option α
  | [] => none
  | (k, w) :: rest => if k = key then some w else getItem key rest

/-- AsyncStorage.removeItem: drop the binding for the key. -/
def removeItem {α : Type} (key : String) (s : List (String × α)) : List (String × α) :=
  s.filter (fun kv => kv.1 ≠ key)

namespace TrackingService

/-- A tracking entry as built by trackScan / trackInspection / trackMovement:
id and timestamp are generated at creation; the kind-specific fields
(location, metadata, notes, ...) are collapsed into an opaque payload.
Timestamps are ISO strings in the source, ordered like their numeric time;
we model them as Int milliseconds. -/
structure TrackEntry where
  id : String
  fittingId : String
  timestamp : Int
  userId : String
  status : String
  payload : String
deriving DecidableEq, Repr

/-- The state touched by TrackingService: the AsyncStorage bindings for the
per-entry records (keys of the form tracking_<id>), the durable
tracking_master_list binding, the in-memory trackingCache Map, and the
in-memory syncQueue array. -/
structure TrackState where
  entriesStore : List (String × TrackEntry)
  masterList : List String
  trackingCache : List (String × TrackEntry)
  syncQueue : List TrackEntry
deriving DecidableEq, Repr

/-- TrackingService.storeTrackingEntry: setItem the record under
tracking_<id>, then read the master list, push the id, and write it back.
setFault models AsyncStorage.setItem throwing: the catch block only logs,
so the state is left as it was at the point of the throw (the first
setItem is the first effect, so a set fault leaves everything unchanged). -/
def storeTrackingEntry (setFault : Bool) (e : TrackEntry) (st : TrackState) : TrackState :=
  if setFault then st
  else { st with
           entriesStore := setItem ("tracking_" ++ e.id) e st.entriesStore,
           masterList := st.masterList ++ [e.id] }

/-- TrackingService.trackScan: build the entry (id/timestamp generated by the
environment, here passed in), put it in the in-memory cache, store it
durably (storeTrackingEntry never throws: it catches store faults), push it
onto the in-memory sync queue, and return it. The outer catch (returning
null) is unreachable, hence the result is always some entry. -/
def trackScan (setFault : Bool) (e : TrackEntry) (st : TrackState) :
    Option TrackEntry × TrackState :=
  let st1 := { st with trackingCache := setItem e.id e st.trackingCache }
  let st2 := storeTrackingEntry setFault e st1
  let st3 := { st2 with syncQueue := st2.syncQueue ++ [e] }
  (some e, st3)

/-- TrackingService.getAllTrackingEntries: walk the master list and load
each tracking_<id> record; missing or unreadable records are skipped
(the per-entry catch only warns). Order is master-list order. -/
def getAllTrackingEntries (st : TrackState) : List TrackEntry :=
  st.masterList.filterMap (fun id => getItem ("tracking_" ++ id) st.entriesStore)

/-- The comparator of getRecentActivity / getTrackingHistory:
(a, b) => new Date(b.timestamp) - new Date(a.timestamp), i.e. sort by
timestamp descending. -/
def byTimestampDesc (a b : TrackEntry) : Prop := b.timestamp ≤ a.timestamp

instance : DecidableRel byTimestampDesc := fun a b => Int.decLe b.timestamp a.timestamp

instance : IsTotal TrackEntry byTimestampDesc :=
  ⟨fun a b => (Int.le_total b.timestamp a.timestamp)⟩

instance : IsTrans TrackEntry byTimestampDesc :=
  ⟨fun _ _ _ hab hbc => le_trans hbc hab⟩

/-- TrackingService.getRecentActivity: all entries, sorted most-recent-first
(a stable sort by the descending comparator), truncated to the limit
(default 20). -/
def getRecentActivity (limit : Nat) (st : TrackState) : List TrackEntry :=
  ((getAllTrackingEntries st).insertionSort byTimestampDesc).take limit

/-- The failure kinds named by the spec; the source's sync loop never
inspects the error it catches, so both kinds flow through identically. -/
inductive SyncError
  | transient
  | rejection
deriving DecidableEq, Repr

/-- The result object of TrackingService.syncPendingEntries. -/
structure SyncRunResult where
  success : Bool
  synced : Nat
  failed : Nat
deriving DecidableEq, Repr

/-- TrackingService.syncPendingEntries: if the queue is empty, report zero.
Otherwise attempt each queued entry once (outcome models
simulateServerSync's resolve/throw); a throw of any kind is caught, the
entry is appended to failedEntries; afterwards the queue is replaced by
the failed entries and aggregate counts are returned. -/
def syncPendingEntries (outcome : TrackEntry → Except SyncError Unit)
    (queue : List TrackEntry) : List TrackEntry × SyncRunResult :=
  if queue.length = 0 then (queue, ⟨true, 0, 0⟩)
  else
    let step : Nat × List TrackEntry → TrackEntry → Nat × List TrackEntry :=
      fun acc e =>
        match outcome e with
        | .ok _ => (acc.1 + 1, acc.2)
        | .error _ => (acc.1, acc.2 ++ [e])
    let r := queue.foldl step (0, [])
    (r.2, ⟨true, r.1, r.2.length⟩)

/-- TrackingService.clearTrackingData: remove every tracking_<id> record
listed in the master list, remove the master list itself, clear the
in-memory cache and the sync queue. -/
def clearTrackingData (st : TrackState) : TrackState :=
  { entriesStore := st.masterList.foldl (fun s id => removeItem ("tracking_" ++ id) s) st.entriesStore,
    masterList := [],
    trackingCache := [],
    syncQueue := [] }

end TrackingService

namespace InspectionService

/-- A locally stored inspection as saved by storeInspectionLocally: its id,
an opaque payload for the remaining fields, and the synced flag set by
syncPendingInspections (absent on a fresh record, i.e. false). -/
structure LocalInspection where
  inspectionId : String
  payload : String
  synced : Bool
deriving DecidableEq, Repr

/-- The result of submitToUDM / submitToTMS: the axios call either resolves
with data or throws; the catch turns a throw into success false with the
error message, so the function is total. -/
structure EndpointResult where
  success : Bool
  data : Option String
  error : Option String
deriving DecidableEq, Repr

/-- InspectionService.submitToUDM: POST to the UDM portal; resp is the
outcome of the axios call (ok data, or a thrown error such as a timeout
or a 4xx response, which axios raises and the catch absorbs). -/
def submitToUDM (resp : Except String String) : EndpointResult :=
  match resp with
  | .ok d => ⟨true, some d, none⟩
  | .error e => ⟨false, none, some e⟩

/-- InspectionService.submitToTMS: identical shape against the TMS portal. -/
def submitToTMS (resp : Except String String) : EndpointResult :=
  match resp with
  | .ok d => ⟨true, some d, none⟩
  | .error e => ⟨false, none, some e⟩

/-- The result of validateInspectionData: a valid flag and the error list. -/
structure ValidationResult where
  valid : Bool
  errors : List String
deriving DecidableEq, Repr

/-- The object returned by submitInspection on the happy path (the fields
relevant to sync semantics; reportId and message are omitted as opaque). -/
structure SubmitOutcome where
  success : Bool
  error : Option String
  inspectionId : Option String
  udmStatus : Option Bool
  tmsStatus : Option Bool
deriving DecidableEq, Repr

/-- InspectionService.submitInspection: validate, and on failure return
early; otherwise submit the payload to UDM, then to TMS (both calls are
total: each catches its own network errors), store locally, and report
both endpoint statuses separately. The validation outcome and the
prepared payload id are passed in; the two network outcomes are the
environment. -/
def submitInspection (validation : ValidationResult) (payloadId : String)
    (udmResp tmsResp : Except String String) : SubmitOutcome :=
  if !validation.valid then
    ⟨false, some (String.intercalate ", " validation.errors), none, none, none⟩
  else
    let udmResult := submitToUDM udmResp
    let tmsResult := submitToTMS tmsResp
    ⟨true, none, some payloadId, some udmResult.success, some tmsResult.success⟩

/-- InspectionService.storeInspectionLocally: append the payload to the
localInspections list, then keep only the last 100
(splice(0, length - 100) drops the oldest overflow). A storage fault is
caught and logged; the success path is modelled. -/
def storeInspectionLocally (payload : LocalInspection)
    (inspections : List LocalInspection) : List LocalInspection :=
  let l := inspections ++ [payload]
  if l.length > 100 then l.drop (l.length - 100) else l

/-- InspectionService.storeReportLocally: same shape for inspectionReports,
keeping only the last 50. Reports are modelled by their id string. -/
def storeReportLocally (report : String) (reports : List String) : List String :=
  let l := reports ++ [report]
  if l.length > 50 then l.drop (l.length - 50) else l

/-- The result object of syncPendingInspections. -/
structure SyncCycleResult where
  success : Bool
  synced : Nat
  failed : Nat
  total : Nat
deriving DecidableEq, Repr

/-- InspectionService.syncPendingInspections: filter the local list to the
entries not yet synced; for each, submit to UDM and to TMS (udmOk / tmsOk
give each endpoint's success for that entry); if either succeeded, mark
the entry synced (the JS mutates the shared object, so the saved list is
the original list with those entries updated); count successes and
failures over the pending entries only. -/
def syncPendingInspections (udmOk tmsOk : LocalInspection → Bool)
    (l : List LocalInspection) : List LocalInspection × SyncCycleResult :=
  let pending := l.filter (fun i => !i.synced)
  let updated := l.map (fun i =>
    if !i.synced && (udmOk i || tmsOk i) then { i with synced := true } else i)
  let successCount := pending.countP (fun i => udmOk i || tmsOk i)
  let failCount := pending.countP (fun i => !(udmOk i || tmsOk i))
  (updated, ⟨true, successCount, failCount, pending.length⟩)

/-- The visual checklist of the inspection form. -/
structure VisualCheck where
  cracks : Bool
  corrosion : Bool
  deformation : Bool
  surfaceDamage : Bool
deriving DecidableEq, Repr

/-- Object.values(visualCheck).filter(v => v).length. -/
def VisualCheck.defects (v : VisualCheck) : Int :=
  (if v.cracks then 1 else 0) + (if v.corrosion then 1 else 0)
    + (if v.deformation then 1 else 0) + (if v.surfaceDamage then 1 else 0)

/-- The inspection-form fields read by calculateQualityScore. -/
structure InspectionInput where
  visualCheck : VisualCheck
  tolerance : String
  tensileStrength : String
  chemicalComposition : String
  performance : String
deriving DecidableEq, Repr

/-- InspectionService.calculateQualityScore: start at 100, subtract 10 per
visual defect, 5 or 15 for marginal or outside tolerance, 20 for a failed
tensile test, 15 for a failed chemical composition, 25 or 10 for poor or
merely acceptable performance; clamp with Math.max(0, Math.min(100, s)). -/
def calculateQualityScore (data : InspectionInput) : Int :=
  let score : Int := 100
  let score := score - data.visualCheck.defects * 10
  let score := if data.tolerance = "marginal" then score - 5
    else if data.tolerance = "outside" then score - 15 else score
  let score := if data.tensileStrength = "fail" then score - 20 else score
  let score := if data.chemicalComposition = "fail" then score - 15 else score
  let score := if data.performance = "poor" then score - 25
    else if data.performance = "acceptable" then score - 10 else score
  max 0 (min 100 score)

end InspectionService

namespace DashboardService

/-- this.cacheExpiry = 5 * 60 * 1000 milliseconds. -/
def cacheExpiry : Int := 5 * 60 * 1000

/-- DashboardService.getCachedData: the cache binding holds data plus the
storedAt timestamp; a hit requires Date.now() - timestamp < cacheExpiry,
otherwise (stale, absent, or unreadable) the result is null. -/
def getCachedData {α : Type} (cache : Option (α × Int)) (now : Int) : Option α :=
  match cache with
  | some (data, ts) => if now - ts < cacheExpiry then some data else none
  | none => none

/-- DashboardService.cacheData: store the data with a fresh timestamp. -/
def cacheData {α : Type} (data : α) (now : Int) : Option (α × Int) :=
  some (data, now)

/-- DashboardService.getDashboardData: return the cached value on a hit;
on a miss generate fresh data (here the environment parameter fresh),
cache it with the current time, and return it. The result is the returned
value together with the cache state after the call. -/
def getDashboardData {α : Type} (cache : Option (α × Int)) (now : Int) (fresh : α) :
    α × Option (α × Int) :=
  match getCachedData cache now with
  | some d => (d, cache)
  | none => (fresh, cacheData fresh now)

end DashboardService

namespace QRService

/-- The data object of a successful parseQRCode: the five dash-separated
fields plus the spread of the fitting details fetched for the code (an
opaque payload α; the in-repo detail sources carry no keys that collide
with the five parsed fields). -/
structure ParsedData (α : Type) where
  qrCode : String
  typeName : String
  typeCode : String
  lotNumber : String
  manufactureDate : String
  vendorCode : String
  serialNumber : String
  details : α
deriving DecidableEq, Repr

/-- The result object of parseQRCode. -/
structure ParseResult (α : Type) where
  success : Bool
  error : Option String
  data : Option (ParsedData α)
deriving DecidableEq, Repr

/-- JS String.prototype.split with a one-character separator, over the
character list: an empty string yields [''], separators at the ends or
adjacent separators yield empty fields. -/
def splitChars (sep : Char) : List Char → List (List Char)
  | [] => [[]]
  | c :: cs =>
    if c = sep then [] :: splitChars sep cs
    else
      match splitChars sep cs with
      | [] => [[c]]
      | h :: t => (c :: h) :: t

/-- qrData.split(sep) for a one-character separator string. -/
def splitOnChar (sep : Char) (s : String) : List String :=
  (splitChars sep s.data).map String.mk

/-- const validTypes = ['RC', 'LN', 'RP', 'SL']. -/
def validTypes : List String := ["RC", "LN", "RP", "SL"]

/-- QRService.getFittingTypeName: lookup table with 'Unknown' default. -/
def getFittingTypeName (code : String) : String :=
  if code = "RC" then "Elastic Rail Clip"
  else if code = "LN" then "Liner"
  else if code = "RP" then "Rail Pad"
  else if code = "SL" then "Sleeper"
  else "Unknown"

/-- QRService.parseQRCode: split on '-'; fewer than 5 parts is a format
failure; a first part outside validTypes is a type failure; both return
before getFittingDetails is called (getDetails is the environment: the
remote lookup with its offline mock fallback, which never throws). On
success the data carries exactly the first five parts in order, plus the
fetched details. -/
def parseQRCode {α : Type} (getDetails : String → α) (qrData : String) : ParseResult α :=
  let parts := splitOnChar (Char.ofNat 45) qrData
  match parts with
  | t :: lot :: date :: vendor :: serial :: _ =>
    if !(validTypes.contains t) then
      ⟨false, some "Invalid fitting type", none⟩
    else
      let fittingDetails := getDetails qrData
      ⟨true, none,
        some ⟨qrData, getFittingTypeName t, t, lot, date, vendor, serial, fittingDetails⟩⟩
  | _ => ⟨false, some "Invalid QR code format", none⟩

end QRService

namespace AIService

/-- AIService.calculateBaseScore: start at 85; subtract 5 past one year of
age and a further 10 past two years; add 10 / add 5 / subtract 5 for
quality grade A / B / C; if an inspection history is present and
non-empty, add (passRate - 80) * 0.2 where passRate is the percentage of
entries whose result is 'Passed'; finally
Math.max(0, Math.min(100, Math.round(score))). The history is modelled by
its list of result strings; arithmetic is exact rational (the claim under
proof is insensitive to double rounding). -/
def calculateBaseScore (ageInDays : Int) (qualityGrade : String)
    (inspectionHistory : Option (List String)) : Int :=
  let score : Rat := 85
  let score := if ageInDays > 365 then score - 5 else score
  let score := if ageInDays > 730 then score - 10 else score
  let score :=
    if qualityGrade = "A" then score + 10
    else if qualityGrade = "B" then score + 5
    else if qualityGrade = "C" then score - 5
    else score
  let score :=
    match inspectionHistory with
    | some history =>
      if history.length > 0 then
        let passRate : Rat :=
          ((history.countP (fun r => r = "Passed") : Rat) / (history.length : Rat)) * 100
        score + (passRate - 80) * (1 / 5)
      else score
    | none => score
  max 0 (min 100 (round score))

end AIService

section Fixtures

open TrackingService InspectionService

/-- A concrete tracking entry used by the counterexample states. -/
def tEntry : TrackingService.TrackEntry :=
  ⟨"t1", "fit1", 0, "user1", "scanned", ""⟩

/-- The empty TrackingService state (fresh install, nothing stored). -/
def emptyTrackState : TrackingService.TrackState := ⟨[], [], [], []⟩

/-- A concrete entry for the sync-failure scenarios. -/
def t4Entry : TrackingService.TrackEntry :=
  ⟨"t4", "fit4", 0, "user1", "scanned", ""⟩

/-- An outcome environment where the server rejects every upload. -/
def rejectAll : TrackingService.TrackEntry → Except TrackingService.SyncError Unit :=
  fun _ => Except.error TrackingService.SyncError.rejection

/-- An outcome environment where every upload times out. -/
def timeoutAll : TrackingService.TrackEntry → Except TrackingService.SyncError Unit :=
  fun _ => Except.error TrackingService.SyncError.transient

/-- Did an upload attempt succeed (the only aspect of the outcome the sync
loop ever inspects). -/
def syncOk (r : Except TrackingService.SyncError Unit) : Bool :=
  match r with
  | .ok _ => true
  | .error _ => false

/-- A pending (never synced) local inspection, the oldest one. -/
def c7Oldest : InspectionService.LocalInspection := ⟨"old", "p", false⟩

/-- A pending filler inspection. -/
def c7Filler : InspectionService.LocalInspection := ⟨"fill", "p", false⟩

/-- A freshly captured inspection being persisted. -/
def c7Fresh : InspectionService.LocalInspection := ⟨"new", "p", false⟩

/-- A full local list: the oldest pending inspection followed by 99 others
(at the 100-entry cap of storeInspectionLocally). -/
def c7FullList : List InspectionService.LocalInspection :=
  c7Oldest :: List.replicate 99 c7Filler

/-- Two stored tracking entries: the older one first in the master list. -/
def c8Older : TrackingService.TrackEntry := ⟨"a", "fit1", 1, "user1", "scanned", ""⟩

/-- The more recent stored tracking entry. -/
def c8Newer : TrackingService.TrackEntry := ⟨"b", "fit1", 2, "user1", "scanned", ""⟩

/-- A state holding both entries, captured in timestamp order. -/
def c8State : TrackingService.TrackState :=
  ⟨[("tracking_a", c8Older), ("tracking_b", c8Newer)], ["a", "b"], [], []⟩

/-- A pending local inspection for the C1 scenario. -/
def c1Pending : InspectionService.LocalInspection := ⟨"INS-1", "p", false⟩

end Fixtures

section StoreLemmas

/-- Reading a key just written returns the written value. -/
theorem getItem_setItem_self {α : Type} (k : String) (v : α) (s : List (String × α)) :
    getItem k (setItem k v s) = some v := by
  induction s with
  | nil => simp [setItem, getItem]
  | cons kv rest ih =>
    obtain ⟨k2, w⟩ := kv
    by_cases h : k2 = k
    · simp [setItem, getItem, h]
    · simp [setItem, getItem, h, ih]

/-- Writing a key leaves every other key unchanged. -/
theorem getItem_setItem_ne {α : Type} (k k2 : String) (v : α) (s : List (String × α))
    (h : k ≠ k2) : getItem k (setItem k2 v s) = getItem k s := by
  have h2 : ¬(k2 = k) := fun hh => h hh.symm
  induction s with
  | nil => simp [setItem, getItem, h2]
  | cons kv rest ih =>
    obtain ⟨k3, w⟩ := kv
    by_cases h3 : k3 = k2
    · subst h3
      simp [setItem, getItem, h2]
    · simp [setItem, getItem, h3, ih]

/-- Writing the same binding twice is the same as writing it once. -/
theorem setItem_setItem_same {α : Type} (k : String) (v : α) (s : List (String × α)) :
    setItem k v (setItem k v s) = setItem k v s := by
  induction s with
  | nil => simp [setItem]
  | cons kv rest ih =>
    obtain ⟨k2, w⟩ := kv
    by_cases h : k2 = k
    · simp [setItem, h]
    · simp [setItem, h, ih]

end StoreLemmas

section ClaimC3

open DashboardService

/-- C3: a cached dashboard read at time now returns the stored value exactly
when now - storedAt < ttl; at or after storedAt + ttl the read misses and
getDashboardData recomputes, returning the fresh value and storing it with
the new timestamp, while a read strictly inside the ttl window returns the
cached value and leaves the cache untouched. -/
theorem cache_ttl_boundary {α : Type} (d fresh : α) (ts now : Int) :
    (getCachedData (some (d, ts)) now = some d ↔ now - ts < cacheExpiry) ∧
    (getCachedData (some (d, ts)) now = none ↔ cacheExpiry ≤ now - ts) ∧
    (now - ts < cacheExpiry →
      getDashboardData (some (d, ts)) now fresh = (d, some (d, ts))) ∧
    (cacheExpiry ≤ now - ts →
      getDashboardData (some (d, ts)) now fresh = (fresh, some (fresh, now))) := by
  by_cases h : now - ts < cacheExpiry
  · refine ⟨by simp [getCachedData, h], by simp [getCachedData, h], ?_, ?_⟩
    · intro _
      simp [getDashboardData, getCachedData, h]
    · intro h2
      omega
  · have h2 : cacheExpiry ≤ now - ts := by omega
    refine ⟨by simp [getCachedData, h], by simp [getCachedData, h, h2], ?_, ?_⟩
    · intro hc
      omega
    · intro _
      simp [getDashboardData, getCachedData, cacheData, h]

/-- C3 witness: with the value stored at time 0, a read at 299999 ms hits
and a read at exactly the 5-minute expiry recomputes and restores. -/
theorem cache_ttl_boundary_witness :
    ((299999 : Int) - 0 < cacheExpiry ∧
      getDashboardData (some ((1 : Nat), (0 : Int))) 299999 2 = (1, some (1, 0))) ∧
    (cacheExpiry ≤ (300000 : Int) - 0 ∧
      getDashboardData (some ((1 : Nat), (0 : Int))) 300000 2 = (2, some (2, 300000))) :=
  ⟨⟨by decide, (cache_ttl_boundary 1 2 0 299999).2.2.1 (by decide)⟩,
   ⟨by decide, (cache_ttl_boundary 1 2 0 300000).2.2.2 (by decide)⟩⟩

end ClaimC3

section ClaimC5

open InspectionService

/-- C5: during the upload of one inspection, the UDM and TMS endpoints are
attempted independently: each status in the result is determined solely by
its own endpoint response (so a UDM failure or timeout cannot change the
TMS attempt's recorded outcome), and the two outcomes are recorded in
separate fields of the result. -/
theorem submit_endpoints_independent (v : ValidationResult) (pid : String)
    (udmResp udmResp2 tmsResp : Except String String) (h : v.valid = true) :
    (submitInspection v pid udmResp tmsResp).udmStatus = some (submitToUDM udmResp).success ∧
    (submitInspection v pid udmResp tmsResp).tmsStatus = some (submitToTMS tmsResp).success ∧
    (submitInspection v pid udmResp tmsResp).tmsStatus
      = (submitInspection v pid udmResp2 tmsResp).tmsStatus := by
  refine ⟨?_, ?_, ?_⟩ <;> simp [submitInspection, h]

/-- C5 witness: with a timed-out UDM call and a successful TMS call, the
result still records TMS success, separately from the UDM failure. -/
theorem submit_endpoints_independent_witness :
    (⟨true, []⟩ : ValidationResult).valid = true ∧
    ((submitInspection ⟨true, []⟩ "INS-1" (Except.error "timeout of 10000ms")
        (Except.ok "accepted")).udmStatus
      = some (submitToUDM (Except.error "timeout of 10000ms")).success ∧
    (submitInspection ⟨true, []⟩ "INS-1" (Except.error "timeout of 10000ms")
        (Except.ok "accepted")).tmsStatus
      = some (submitToTMS (Except.ok "accepted")).success ∧
    (submitInspection ⟨true, []⟩ "INS-1" (Except.error "timeout of 10000ms")
        (Except.ok "accepted")).tmsStatus
      = (submitInspection ⟨true, []⟩ "INS-1" (Except.ok "fine")
        (Except.ok "accepted")).tmsStatus) :=
  ⟨rfl, submit_endpoints_independent ⟨true, []⟩ "INS-1" (Except.error "timeout of 10000ms")
    (Except.ok "fine") (Except.ok "accepted") rfl⟩

end ClaimC5

section ClaimC6

open TrackingService

/-- C6: when the durable store's set operation fails during a capture, the
capture call still returns the created entry to its caller, the entry is
retained in the in-memory cache and in the sync queue, and the storage
fault leaves the durable state untouched without any exception escaping
(trackScan is total and never reaches its null-returning catch). -/
theorem trackScan_survives_store_fault (e : TrackEntry) (st : TrackState) :
    (trackScan true e st).1 = some e ∧
    getItem e.id (trackScan true e st).2.trackingCache = some e ∧
    e ∈ (trackScan true e st).2.syncQueue ∧
    (trackScan true e st).2.entriesStore = st.entriesStore ∧
    (trackScan true e st).2.masterList = st.masterList := by
  refine ⟨rfl, ?_, ?_, rfl, rfl⟩
  · simp [trackScan, storeTrackingEntry, getItem_setItem_self]
  · simp [trackScan, storeTrackingEntry]

end ClaimC6

section ClaimC10

/-- C10: for every inspection input the computed quality score lies in
0..100 inclusive, and for every fitting age, grade and inspection history
the AI base performance score lies in 0..100 inclusive; both are integers
(the return type), however many deductions or bonuses apply. -/
theorem scores_clamped (data : InspectionService.InspectionInput)
    (ageInDays : Int) (qualityGrade : String) (history : Option (List String)) :
    (0 ≤ InspectionService.calculateQualityScore data ∧
      InspectionService.calculateQualityScore data ≤ 100) ∧
    (0 ≤ AIService.calculateBaseScore ageInDays qualityGrade history ∧
      AIService.calculateBaseScore ageInDays qualityGrade history ≤ 100) := by
  have clamp : ∀ s : Int, 0 ≤ max 0 (min 100 s) ∧ max 0 (min 100 s) ≤ 100 := by
    intro s
    constructor
    · exact le_max_left 0 _
    · exact max_le (by norm_num) (min_le_left _ _)
  exact ⟨clamp _, clamp _⟩

end ClaimC10

section ClaimC1

open InspectionService

/-- C1 counterexample: a pending inspection whose UDM upload succeeds while
its TMS upload fails is nevertheless marked synced by the sync cycle (it
leaves the pending set), refuting the claim that success on only one of
the two endpoints leaves the entry queued as not yet synced. -/
theorem syncPendingInspections_or_counterexample :
    ((syncPendingInspections (fun _ => true) (fun _ => false) [c1Pending]).1
      = [⟨"INS-1", "p", true⟩]) ∧
    ((fun _ : LocalInspection => false) c1Pending = false) ∧
    c1Pending.synced = false := by decide

/-- C1 amended: a sync cycle marks a pending inspection synced (removing it
from the pending set) exactly when the upload succeeded on at least one of
the two endpoints, not on both: after the cycle each entry's synced flag
is its old flag or-ed with the two endpoint outcomes, everything else
unchanged. -/
theorem syncPendingInspections_marks_any_success (udmOk tmsOk : LocalInspection → Bool)
    (l : List LocalInspection) :
    (syncPendingInspections udmOk tmsOk l).1
      = l.map (fun i => { i with synced := i.synced || udmOk i || tmsOk i }) := by
  have h : (fun i => if !i.synced && (udmOk i || tmsOk i)
        then { i with synced := true } else i)
      = (fun i : LocalInspection => { i with synced := i.synced || udmOk i || tmsOk i }) := by
    funext i
    obtain ⟨id, p, s⟩ := i
    cases s
    · cases h2 : (udmOk ⟨id, p, false⟩ || tmsOk ⟨id, p, false⟩) <;> simp [h2]
    · simp
  exact congrArg (fun f => List.map f l) h

end ClaimC1

section ClaimC2

open TrackingService

/-- C2 counterexample: enqueuing the same entry twice leaves two references
to it in the durable master list and two in the in-memory sync queue,
refuting the claim that the second enqueue is a no-op leaving exactly one
reference. -/
theorem enqueue_duplicates_counterexample :
    ((storeTrackingEntry false tEntry
        (storeTrackingEntry false tEntry emptyTrackState)).masterList.count "t1" = 2) ∧
    ((trackScan false tEntry
        (trackScan false tEntry emptyTrackState).2).2.syncQueue.count tEntry = 2) := by
  decide

/-- C2 amended: re-enqueuing an already-queued entry id is not a no-op: the
durable master list gains a second reference to the id and the in-memory
sync queue a second copy of the entry; only the keyed per-entry record is
deduplicated, the second durable write overwriting the first in place. -/
theorem enqueue_appends_duplicate_reference (e : TrackEntry) (st : TrackState) :
    (storeTrackingEntry false e (storeTrackingEntry false e st)).masterList
      = st.masterList ++ [e.id, e.id] ∧
    (storeTrackingEntry false e (storeTrackingEntry false e st)).entriesStore
      = setItem ("tracking_" ++ e.id) e st.entriesStore ∧
    getItem ("tracking_" ++ e.id)
      (storeTrackingEntry false e (storeTrackingEntry false e st)).entriesStore = some e ∧
    (trackScan false e (trackScan false e st).2).2.syncQueue = st.syncQueue ++ [e, e] := by
  refine ⟨?_, ?_, ?_, ?_⟩
  · simp [storeTrackingEntry]
  · simp [storeTrackingEntry, setItem_setItem_same]
  · simp [storeTrackingEntry, getItem_setItem_self]
  · simp [trackScan, storeTrackingEntry]

end ClaimC2

section ClaimC4

open TrackingService

/-- The sync loop in closed form: the new queue is the failed entries in
order, and the counts are the number of successful and failed attempts of
this cycle. -/
theorem syncPendingEntries_spec (outcome : TrackEntry → Except SyncError Unit)
    (queue : List TrackEntry) :
    syncPendingEntries outcome queue
      = (queue.filter (fun e => !(syncOk (outcome e))),
         ⟨true, queue.countP (fun e => syncOk (outcome e)),
           (queue.filter (fun e => !(syncOk (outcome e)))).length⟩) := by
  have hfold : ∀ (q : List TrackEntry) (n : Nat) (acc : List TrackEntry),
      q.foldl (fun acc2 e =>
          match outcome e with
          | .ok _ => (acc2.1 + 1, acc2.2)
          | .error _ => (acc2.1, acc2.2 ++ [e])) (n, acc)
        = (n + q.countP (fun e => syncOk (outcome e)),
           acc ++ q.filter (fun e => !(syncOk (outcome e)))) := by
    intro q
    induction q with
    | nil => intro n acc; simp
    | cons e rest ih =>
      intro n acc
      cases h : outcome e with
      | ok u =>
        rw [List.foldl_cons]
        simp only [h]
        rw [ih]
        simp [List.countP_cons, List.filter_cons, syncOk, h, Prod.ext_iff]
        try omega
      | error err =>
        rw [List.foldl_cons]
        simp only [h]
        rw [ih]
        simp [List.countP_cons, List.filter_cons, syncOk, h, Prod.ext_iff]
        try omega
  by_cases hq : queue.length = 0
  · have h0 : queue = [] := List.length_eq_zero.mp hq
    subst h0
    simp [syncPendingEntries]
  · simp only [syncPendingEntries, hq, if_false]
    rw [hfold]
    simp

/-- C4 counterexample: an entry whose upload is rejected by the server is
kept in the queue (so the next sync invocation re-attempts it, i.e. the
rejection is not terminal), and the whole sync result for a rejection is
identical to the result for a network timeout, so the two failure kinds
are not surfaced distinctly. -/
theorem sync_rejection_not_terminal_counterexample :
    (TrackingService.syncPendingEntries rejectAll [t4Entry]).1 = [t4Entry] ∧
    TrackingService.syncPendingEntries rejectAll [t4Entry]
      = TrackingService.syncPendingEntries timeoutAll [t4Entry] := by
  decide

/-- C4 amended: within one sync cycle each queued entry is attempted exactly
once with no backoff; every failed entry, whether the failure is a
transient network error or a remote rejection, remains in the queue to be
re-attempted wholesale on the next sync invocation, and the cycle's
observable behaviour depends only on which attempts succeeded, never on
the kind of error, so the two failure kinds are not distinguished. -/
theorem sync_failures_requeued_uniformly (outcome : TrackEntry → Except SyncError Unit)
    (queue : List TrackEntry) :
    (syncPendingEntries outcome queue).1 = queue.filter (fun e => !(syncOk (outcome e))) ∧
    (syncPendingEntries outcome queue).2.synced
      = queue.countP (fun e => syncOk (outcome e)) ∧
    (∀ outcome2 : TrackEntry → Except SyncError Unit,
      (∀ e, syncOk (outcome e) = syncOk (outcome2 e)) →
      syncPendingEntries outcome queue = syncPendingEntries outcome2 queue) := by
  refine ⟨?_, ?_, ?_⟩
  · rw [syncPendingEntries_spec]
  · rw [syncPendingEntries_spec]
  · intro outcome2 h
    rw [syncPendingEntries_spec, syncPendingEntries_spec]
    have hp : (fun e => !(syncOk (outcome e))) = (fun e => !(syncOk (outcome2 e))) :=
      funext fun e => by rw [h e]
    have hc : (fun e => syncOk (outcome e)) = (fun e => syncOk (outcome2 e)) :=
      funext h
    rw [hp, hc]

/-- C4 amended witness: a rejected upload and a timed-out upload give the
same sync outcome on a concrete one-entry queue. -/
theorem sync_failures_requeued_uniformly_witness :
    TrackingService.syncPendingEntries rejectAll [t4Entry]
      = TrackingService.syncPendingEntries timeoutAll [t4Entry] :=
  (sync_failures_requeued_uniformly rejectAll [t4Entry]).2.2 timeoutAll (fun _ => rfl)

end ClaimC4

section ClaimC7

open InspectionService TrackingService

/-- C7 counterexample: with 100 locally stored, never-synced inspections,
persisting one more silently drops the oldest pending entry, which is
neither a user-initiated bulk clear nor a confirmed sync, refuting the
claim that persisting a new entry never discards unsynced entries. -/
theorem inspection_cap_drops_unsynced_counterexample :
    c7Oldest.synced = false ∧
    c7Oldest ∈ c7FullList ∧
    c7Oldest ∉ InspectionService.storeInspectionLocally c7Fresh c7FullList := by
  decide

/-- C7 amended: tracking entries are indeed only removed by the explicit
bulk clear (storing one never touches other records, and the clear empties
the listing), but locally stored inspections are capped at the most recent
100 and reports at 50: persisting a new one always keeps the new entry and
drops only the oldest overflow, regardless of sync state; below the cap
nothing is discarded. -/
theorem store_locally_retention (p : LocalInspection) (l : List LocalInspection)
    (r : String) (rs : List String) (e : TrackEntry) (st : TrackState) :
    p ∈ storeInspectionLocally p l ∧
    (storeInspectionLocally p l).length = min (l.length + 1) 100 ∧
    storeInspectionLocally p l <:+ l ++ [p] ∧
    (l.length < 100 → storeInspectionLocally p l = l ++ [p]) ∧
    (storeReportLocally r rs).length = min (rs.length + 1) 50 ∧
    (∀ k, k ≠ "tracking_" ++ e.id →
      getItem k (storeTrackingEntry false e st).entriesStore = getItem k st.entriesStore) ∧
    (∀ id2, id2 ∈ st.masterList → id2 ∈ (storeTrackingEntry false e st).masterList) ∧
    getAllTrackingEntries (clearTrackingData st) = [] := by
  refine ⟨?_, ?_, ?_, ?_, ?_, ?_, ?_, ?_⟩
  · by_cases h : (l ++ [p]).length > 100
    · have hle : (l ++ [p]).length - 100 ≤ l.length := by
        simp only [List.length_append, List.length_singleton] at h ⊢
        omega
      simp only [storeInspectionLocally, if_pos h,
        List.drop_append_of_le_length hle]
      simp
    · simp only [storeInspectionLocally, if_neg h]
      simp
  · by_cases h : (l ++ [p]).length > 100
    · simp only [storeInspectionLocally, if_pos h, List.length_drop]
      simp only [List.length_append, List.length_singleton] at h ⊢
      omega
    · simp only [storeInspectionLocally, if_neg h]
      simp only [List.length_append, List.length_singleton] at h ⊢
      omega
  · by_cases h : (l ++ [p]).length > 100
    · simp only [storeInspectionLocally, if_pos h]
      exact List.drop_suffix _ _
    · simp only [storeInspectionLocally, if_neg h]
      exact List.suffix_refl _
  · intro h
    have h2 : ¬((l ++ [p]).length > 100) := by
      simp only [List.length_append, List.length_singleton]
      omega
    simp only [storeInspectionLocally, if_neg h2]
  · by_cases h : (rs ++ [r]).length > 50
    · simp only [storeReportLocally, if_pos h, List.length_drop]
      simp only [List.length_append, List.length_singleton] at h ⊢
      omega
    · simp only [storeReportLocally, if_neg h]
      simp only [List.length_append, List.length_singleton] at h ⊢
      omega
  · intro k hk
    simp only [storeTrackingEntry, if_neg (by simp : ¬(False = True))]
    exact getItem_setItem_ne k _ e st.entriesStore hk
  · intro id2 h2
    simp [storeTrackingEntry, h2]
  · simp [getAllTrackingEntries, clearTrackingData]

/-- C7 amended witness: below the cap nothing is dropped when a new
inspection is persisted. -/
theorem store_locally_retention_witness :
    ([c7Oldest] : List InspectionService.LocalInspection).length < 100 ∧
    InspectionService.storeInspectionLocally c7Fresh [c7Oldest] = [c7Oldest, c7Fresh] :=
  ⟨by decide,
   (store_locally_retention c7Fresh [c7Oldest] "r" [] tEntry emptyTrackState).2.2.2.1
     (by decide)⟩

end ClaimC7

section ClaimC8

open TrackingService

/-- C8 counterexample: with an older and a newer entry stored in capture
order, listing all entries returns them oldest first, in master-list
order, which is not sorted by timestamp descending, refuting the claim
that the full listing is most-recent-first. -/
theorem listing_not_sorted_counterexample :
    getAllTrackingEntries c8State = [c8Older, c8Newer] ∧
    c8Older.timestamp < c8Newer.timestamp ∧
    ¬ List.Sorted byTimestampDesc (getAllTrackingEntries c8State) := by
  decide

/-- C8 amended: listing all known entries returns a finite sequence with
exactly the loadable stored entries of the master list, in master-list
(capture) order rather than sorted; the recent-activity listing is the one
sorted by timestamp descending, and it is truncated to its limit. -/
theorem listing_order (st : TrackState) (limit : Nat) :
    (∀ e, e ∈ getAllTrackingEntries st ↔
      ∃ id, id ∈ st.masterList ∧ getItem ("tracking_" ++ id) st.entriesStore = some e) ∧
    List.Sorted byTimestampDesc (getRecentActivity limit st) ∧
    (getRecentActivity limit st).length ≤ limit ∧
    (∀ e, e ∈ getRecentActivity limit st → e ∈ getAllTrackingEntries st) := by
  refine ⟨?_, ?_, ?_, ?_⟩
  · intro e
    simp [getAllTrackingEntries, List.mem_filterMap]
  · exact ((List.sorted_insertionSort byTimestampDesc _).sublist
      (List.take_sublist _ _))
  · simp only [getRecentActivity, List.length_take]
    exact min_le_left _ _
  · intro e he
    have h1 : e ∈ (getAllTrackingEntries st).insertionSort byTimestampDesc :=
      (List.take_sublist _ _).subset he
    exact (List.mem_insertionSort byTimestampDesc).mp h1

/-- C8 amended witness: on the concrete two-entry state the recent-activity
listing is sorted most-recent-first. -/
theorem listing_order_witness :
    List.Sorted byTimestampDesc (getRecentActivity 20 c8State) :=
  (listing_order c8State 20).2.1

end ClaimC8

section ClaimC9

open QRService

/-- C9: QR parsing fails (success false with an error message) exactly when
the input splits on the dash separator into fewer than 5 parts or its
first part is not one of RC, LN, RP, SL; on such inputs the result does
not depend on the fitting-detail lookup (so no remote lookup is
observable), and on accepted inputs the parsed typeCode, lotNumber,
manufactureDate, vendorCode and serialNumber are exactly the first five
parts in order, with the fetched details attached. -/
theorem parse_rejects_malformed {α : Type} (gd gd2 : String → α) (qr : String) :
    ((parseQRCode gd qr).success = false ↔
      ((splitOnChar (Char.ofNat 45) qr).length < 5 ∨
        validTypes.contains ((splitOnChar (Char.ofNat 45) qr).headI) = false)) ∧
    ((parseQRCode gd qr).success = false → parseQRCode gd qr = parseQRCode gd2 qr) ∧
    (∀ t lot date vendor serial rest,
      splitOnChar (Char.ofNat 45) qr = t :: lot :: date :: vendor :: serial :: rest →
      validTypes.contains t = true →
      parseQRCode gd qr
        = ⟨true, none,
            some ⟨qr, getFittingTypeName t, t, lot, date, vendor, serial, gd qr⟩⟩) := by
  rcases h : splitOnChar (Char.ofNat 45) qr with
    _ | ⟨t, _ | ⟨lot, _ | ⟨date, _ | ⟨vendor, _ | ⟨serial, rest⟩⟩⟩⟩⟩
  · exact ⟨by simp [parseQRCode, h], fun _ => by simp [parseQRCode, h],
      fun t2 l2 d2 v2 s2 r2 heq hval => absurd heq (by simp)⟩
  · exact ⟨by simp [parseQRCode, h], fun _ => by simp [parseQRCode, h],
      fun t2 l2 d2 v2 s2 r2 heq hval => absurd heq (by simp)⟩
  · exact ⟨by simp [parseQRCode, h], fun _ => by simp [parseQRCode, h],
      fun t2 l2 d2 v2 s2 r2 heq hval => absurd heq (by simp)⟩
  · exact ⟨by simp [parseQRCode, h], fun _ => by simp [parseQRCode, h],
      fun t2 l2 d2 v2 s2 r2 heq hval => absurd heq (by simp)⟩
  · exact ⟨by simp [parseQRCode, h], fun _ => by simp [parseQRCode, h],
      fun t2 l2 d2 v2 s2 r2 heq hval => absurd heq (by simp)⟩
  · refine ⟨?_, ?_, ?_⟩
    · by_cases hm : t ∈ validTypes
      · simp only [parseQRCode, h]
        simp [hm]
      · simp only [parseQRCode, h]
        simp [hm]
    · intro hfail
      by_cases hm : t ∈ validTypes
      · exfalso
        simp only [parseQRCode, h] at hfail
        simp [hm] at hfail
      · simp only [parseQRCode, h]
        simp [hm]
    · intro t2 l2 d2 v2 s2 r2 heq hval
      injection heq with h1 heq
      injection heq with h2 heq
      injection heq with h3 heq
      injection heq with h4 heq
      injection heq with h5 h6
      subst h1
      subst h2
      subst h3
      subst h4
      subst h5
      have hm : t ∈ validTypes := by simpa using hval
      simp only [parseQRCode, h]
      simp [hm]

/-- C9 witness: a well-formed rail-clip code parses into exactly its five
dash-separated parts, and the detail environment is attached. -/
theorem parse_rejects_malformed_witness :
    (splitOnChar (Char.ofNat 45) "RC-L1-20240101-VND001-12345"
      = ["RC", "L1", "20240101", "VND001", "12345"]) ∧
    QRService.validTypes.contains "RC" = true ∧
    QRService.parseQRCode (fun _ => (0 : Nat)) "RC-L1-20240101-VND001-12345"
      = ⟨true, none,
          some ⟨"RC-L1-20240101-VND001-12345", QRService.getFittingTypeName "RC", "RC", "L1",
            "20240101", "VND001", "12345", 0⟩⟩ :=
  ⟨by decide, by decide,
   (parse_rejects_malformed (fun _ => (0 : Nat)) (fun _ => 1) "RC-L1-20240101-VND001-12345").2.2
     "RC" "L1" "20240101" "VND001" "12345" [] (by decide) (by decide)⟩

end ClaimC9
